import Mathlib

/-!
Verification development for the sample warning system
(src/sample_warning_system.py).

Shallow embedding conventions:
* Timestamps are integers (a fine time unit; one day is 86400 units), so
  pandas whole-day differences (Timedelta.days, which floors) become
  Int.fdiv by 86400.
* Date parsing (pandas to_datetime applied to one cell value) is an
  abstract parameter of type String -> Option Int; errors="coerce"
  corresponds to the none result (NaT), and the default errors="raise"
  raises exactly on values whose parse is none.
* A DataFrame is a column-name list plus rows; each row is an association
  list from column name to a cell.  A cell is either a raw extracted
  string or an already-converted datetime value (Option Int, none = NaT),
  mirroring the in-place conversion df[start_col] = to_datetime(...).
* The wall clock (pd.Timestamp.now()) is a stream Nat -> Int together
  with a call counter threaded through the pipeline; each evaluation of
  Timestamp.now() in the source reads the next stream element.
* Word documents are an Option over a list of tables (none models a file
  Document(...) fails to open); each table is a list of rows of cell
  strings, header row first.
* Streamlit rendering, spreadsheet serialization and the on-screen
  display reformat of already-classified data are presentation and are
  not modelled, with one exception: the end-column display reformat
  (pd.to_datetime without errors="coerce") can raise and thereby alter
  folder status, so its raise condition is modelled.
-/

/-- A cell of a DataFrame: a raw extracted string, or a converted datetime
value (none models NaT). -/
inductive Cell where
  | raw (s : String)
  | date (d : Option Int)
deriving DecidableEq

/-- A row: association list from column name to cell, as produced by
pairing the table header with one data row. -/
abbrev Row := List (String × Cell)

/-- A DataFrame: ordered column names plus rows. -/
structure DF where
  cols : List String
  rows : List Row
deriving DecidableEq

/-- One date-warning rule (the nested rule object of a folder entry). -/
structure Rule where
  start_column : String
  end_column : Option String
  warning_days : Int
  stability_days : Int
deriving DecidableEq

/-- One configured folder entry: name, path and its rule. -/
structure FolderEntry where
  name : String
  path : String
  rule : Rule
deriving DecidableEq

/-- Content of a Word document: its tables, each a list of rows of cell
strings (header row first). -/
abbrev Doc := List (List (List String))

/-- One table of a document turned into a DataFrame
(pd.DataFrame(table_data[1:], columns=table_data[0])); an empty
table_data is skipped by the source (if table_data:). -/
def tableToDF (t : List (List String)) : Option DF :=
  match t with
  | [] => none
  | header :: body =>
    some { cols := header, rows := body.map (fun rw => header.zip (rw.map Cell.raw)) }

/-- extract_tables_from_word: none (the document fails to open) is caught
and yields [], and each nonempty table becomes a DataFrame. -/
def extract_tables_from_word (doc : Option Doc) : List DF :=
  match doc with
  | none => []
  | some tables => tables.filterMap tableToDF

/-- Write one cell of a row (pandas column assignment restricted to one
row): replaces the value under an existing column name, else appends the
column. -/
def setCell (r : Row) (c : String) (v : Cell) : Row :=
  if r.any (fun p => p.1 = c) then r.map (fun p => if p.1 = c then (c, v) else p)
  else r ++ [(c, v)]

/-- Column assignment df[c] = f(row) applied to a whole DataFrame. -/
def setCol (df : DF) (c : String) (f : Row → Cell) : DF :=
  { cols := if c ∈ df.cols then df.cols else df.cols ++ [c],
    rows := df.rows.map (fun r => setCell r c (f r)) }

/-- Tagging of one extracted table with its source file and folder
(table[文件名] = ..., table[来源文件夹] = ...). -/
def tagTable (fileName folderName : String) (df : DF) : DF :=
  setCol (setCol df "文件名" (fun _ => Cell.raw fileName)) "来源文件夹" (fun _ => Cell.raw folderName)

/-- Value of a cell under to_datetime with errors="coerce": a raw string
goes through the abstract parser, an already-converted value is kept. -/
def parseCell (parse : String → Option Int) : Cell → Option Int
  | .raw s => parse s
  | .date d => d

/-- Parsed date found in a row under a column name; a missing cell is NaN
and coerces to NaT (none). -/
def parseAt (parse : String → Option Int) (r : Row) (c : String) : Option Int :=
  match r.find? (fun p => p.1 = c) with
  | some p => parseCell parse p.2
  | none => none

/-- The in-place start-column conversion
df[start_col] = pd.to_datetime(df[start_col], errors="coerce"). -/
def convertStartCol (parse : String → Option Int) (df : DF) (c : String) : DF :=
  setCol df c (fun r => Cell.date (parseAt parse r c))

/-- Order-preserving union of column lists, as used by pd.concat on
frames with differing columns. -/
def unionCols : List String → List String → List String
  | acc, [] => acc
  | acc, c :: cs => unionCols (if c ∈ acc then acc else acc ++ [c]) cs

/-- pd.concat(frames, ignore_index=True): column union, rows in order. -/
def concatDFs (dfs : List DF) : DF :=
  { cols := dfs.foldl (fun acc df => unionCols acc df.cols) [],
    rows := dfs.foldl (fun acc df => acc ++ df.rows) [] }

/-- Whole-day difference (end - start).days; pandas Timedelta.days floors,
hence Int.fdiv. -/
def diffDays (e s : Int) : Int := Int.fdiv (e - s) 86400

/-- Elementwise day difference; NaT on either side gives NaN (none). -/
def daysOf : Option Int → Option Int → Option Int
  | some e, some s => some (diffDays e s)
  | _, _ => none

/-- Which end date the evaluator uses (source line 82): the end column
when it is configured and present in the columns, else the wall clock. -/
def endMode (rule : Rule) (df : DF) : Option String :=
  match rule.end_column with
  | some ec => if ec ∈ df.cols then some ec else none
  | none => none

/-- days_diff of one row: end date (parsed end column or the shared now)
minus the parsed start date, in whole days. -/
def rowDays (parse : String → Option Int) (now : Int) (useEnd : Option String)
    (startCol : String) (r : Row) : Option Int :=
  match useEnd with
  | some ec => daysOf (parseAt parse r ec) (parseAt parse r startCol)
  | none => daysOf (some now) (parseAt parse r startCol)

/-- days_diff column for one rule over a (start-converted) DataFrame. -/
def ruleDaysList (parse : String → Option Int) (now : Int) (df : DF) (rule : Rule) :
    List (Option Int) :=
  df.rows.map (rowDays parse now (endMode rule df) rule.start_column)

/-- warning_mask entry: days_diff > warning_days; a NaN comparison is
False. -/
def maskOf (w : Int) : Option Int → Bool
  | some d => decide (w < d)
  | none => false

/-- warning_mask column. -/
def ruleMask (w : Int) (days : List (Option Int)) : List Bool := days.map (maskOf w)

/-- remaining_days = stability_days - days_diff, elementwise. -/
def ruleRemaining (stab : Int) (days : List (Option Int)) : List (Option Int) :=
  days.map (Option.map (fun d => stab - d))

/-- One warning_results entry of process_date_warnings. -/
structure WarningResult where
  mask : List Bool
  start_col : String
  end_col : String
  warning_days : Int
  stability_days : Int
  days_diff : List (Option Int)
  remaining_days : List (Option Int)
deriving DecidableEq

/-- The warning_results entry one rule produces over a start-converted
DataFrame (source lines 97-105): mask, rule fields, days_diff and
remaining_days; end_col displays as 当前日期 when no end column is
configured. -/
def singleRuleResult (parse : String → Option Int) (now : Int) (df1 : DF)
    (rule : Rule) : WarningResult :=
  { mask := ruleMask rule.warning_days (ruleDaysList parse now df1 rule),
    start_col := rule.start_column,
    end_col := rule.end_column.getD "当前日期",
    warning_days := rule.warning_days,
    stability_days := rule.stability_days,
    days_diff := ruleDaysList parse now df1 rule,
    remaining_days := ruleRemaining rule.stability_days (ruleDaysList parse now df1 rule) }

/-- One iteration of the rule loop of process_date_warnings: skip when the
start column is absent; otherwise convert the start column in place,
compute days_diff (consuming one clock reading exactly when the wall
clock is the end date), and record a warning_results entry when the mask
holds anywhere. -/
def processRule (parse : String → Option Int) (clock : Nat → Int)
    (df : DF) (rule : Rule) (k : Nat) : DF × Option WarningResult × Nat :=
  if rule.start_column ∈ df.cols then
    let df1 := convertStartCol parse df rule.start_column
    let days := ruleDaysList parse (clock k) df1 rule
    let k1 := if (endMode rule df1).isNone then k + 1 else k
    let w :=
      if (ruleMask rule.warning_days days).any (fun b => b) then
        some (singleRuleResult parse (clock k) df1 rule)
      else none
    (df1, w, k1)
  else (df, none, k)

/-- process_date_warnings: folds the rule loop over the date_rules list,
threading the mutated DataFrame and the clock counter, collecting
warning_results in order. -/
def process_date_warnings (parse : String → Option Int) (clock : Nat → Int) :
    DF → List Rule → Nat → DF × List WarningResult × Nat
  | df, [], k => (df, [], k)
  | df, rule :: rest, k =>
    let step := processRule parse clock df rule k
    let out := process_date_warnings parse clock step.1 rest step.2.2
    (out.1,
     (match step.2.1 with
      | some w => w :: out.2.1
      | none => out.2.1),
     out.2.2)

/-- Status labels 已超期 / 接近超期 / 正常. -/
inductive Status where
  | overdue
  | near
  | ok
deriving DecidableEq

/-- The status lambda of process_tables applied to a remaining_days value;
a NaN (none) compares False against both thresholds and yields 正常. -/
def statusOfOpt : Option Int → Status
  | some m => if m ≤ 0 then Status.overdue else if m ≤ 30 then Status.near else Status.ok
  | none => Status.ok

/-- One row of a warning report: the original pandas row index, the row
data, the 已用天数 and 剩余稳定性期限 columns and the 状态 column. -/
structure WRow where
  idx : Nat
  row : Row
  elapsed : Option Int
  remaining : Option Int
  status : Status
deriving DecidableEq

/-- Construction of warning_samples from aligned rows, mask, days_diff and
remaining_days: keep masked rows (folder_merged[mask] keeps the original
row index), attach elapsed/remaining/status, and drop 正常 rows. -/
def buildRows (idx : Nat) :
    List Row → List Bool → List (Option Int) → List (Option Int) → List WRow
  | r :: rs, b :: bs, d :: ds, m :: ms =>
    let rest := buildRows (idx + 1) rs bs ds ms
    if b then
      if statusOfOpt m ≠ Status.ok then
        { idx := idx, row := r, elapsed := d, remaining := m, status := statusOfOpt m } :: rest
      else rest
    else rest
  | _, _, _, _ => []

/-- warning_samples for one warning_results entry (source lines 343-351). -/
def buildWarningSamples (df : DF) (w : WarningResult) : List WRow :=
  buildRows 0 df.rows w.mask w.days_diff w.remaining_days

/-- The per-folder accumulation into all_warning_samples: one sample set
per warning result, kept only when nonempty (if not warning_samples.empty). -/
def folderSampleSets (df : DF) (wrs : List WarningResult) : List (List WRow) :=
  wrs.foldl (fun acc w =>
    let s := buildWarningSamples df w
    if s = [] then acc else acc ++ [s]) []

/-- The warning report that one folder single-rule evaluation produces
(lines 333 and 343-354 of the source, flattened). -/
def folderReport (parse : String → Option Int) (clock : Nat → Int)
    (df : DF) (rule : Rule) (k : Nat) : List WRow :=
  (folderSampleSets (process_date_warnings parse clock df [rule] k).1
    (process_date_warnings parse clock df [rule] k).2.1).flatten

/-- Whether some report row carries the given original row index. -/
def reportedIdx (l : List WRow) (i : Nat) : Bool :=
  l.any (fun wr => decide (wr.idx = i))

/-- The filesystem and document environment of one run: whether a path
exists, and the Word files (name and openable content) found by a
recursive scan under a path. -/
structure FS where
  exists_path : String → Bool
  files : String → List (String × Option Doc)

/-- The folder_status record plus the accumulated datasets and warning
sample sets of process_tables, with the wall-clock call counter. -/
structure PipeState where
  all_tables : List DF
  warning_samples : List (List WRow)
  success : List (String × Nat × Nat)
  empty : List String
  error : List (String × String)
  file_errors : List (String × List String)
  clockIdx : Nat
deriving DecidableEq

/-- State at the start of a run: empty accumulators, clock untouched. -/
def initState : PipeState :=
  { all_tables := [], warning_samples := [], success := [], empty := [],
    error := [], file_errors := [], clockIdx := 0 }

/-- Assignment into the folder-keyed file_errors dict: replaces the value
of an existing key, else appends the key. -/
def dictInsert (d : List (String × List String)) (k : String) (v : List String) :
    List (String × List String) :=
  if d.any (fun p => p.1 = k) then d.map (fun p => if p.1 = k then (k, v) else p)
  else d ++ [(k, v)]

/-- The per-file loop of one folder (source lines 311-324): extract the tables
of each file; a file with a nonempty table list contributes its tagged
tables and counts as processed, otherwise its name joins failed_files. -/
def scanFiles (folderName : String) :
    List (String × Option Doc) → List DF × Nat × List String
  | [] => ([], 0, [])
  | (n, doc) :: rest =>
    let tables := extract_tables_from_word doc
    let out := scanFiles folderName rest
    if tables.isEmpty then (out.1, out.2.1, n :: out.2.2)
    else (tables.map (tagTable n folderName) ++ out.1, out.2.1 + 1, out.2.2)

/-- Whether applying to_datetime with default errors="raise" to this cell
raises: only a present raw string whose parse fails does (NaN and
already-converted values pass through). -/
def cellRaises (parse : String → Option Int) : Option Cell → Bool
  | some (Cell.raw s) => (parse s).isNone
  | some (Cell.date _) => false
  | none => false

/-- Whether the end-column display reformat (source line 340,
pd.to_datetime without errors="coerce") raises for this folder: the end
column is configured, present, and some row holds an unparseable raw
value there. -/
def endReformatRaises (parse : String → Option Int) (df : DF) (rule : Rule) : Bool :=
  match rule.end_column with
  | some ec =>
    decide (ec ∈ df.cols) &&
      df.rows.any (fun r => cellRaises parse ((r.find? (fun p => p.1 = ec)).map (fun p => p.2)))
  | none => false

/-- The folder-level error message for a missing path. -/
def pathErrMsg (p : String) : String := "文件夹路径不存在: " ++ p

/-- Stand-in for str(e) of the ParserError the end-column reformat raises
(the exact message text is pandas internals). -/
def toDatetimeErrMsg : String := "to_datetime raise"

/-- One iteration of the folder loop of process_tables (lines 292-359)
over explicit pathExists/files inputs: a missing path records a
folder-level error; a folder without Word files records an empty status;
otherwise the files are scanned, failed files recorded, and when any
tables were produced the folder dataset is concatenated, appended to
all_tables and evaluated; if the end-column reformat raises, the
exception is caught at the folder level (error recorded after the
dataset was already added); otherwise warning samples and the success
entry (processed count, failed count) are recorded. -/
def processFolderCore (parse : String → Option Int) (clock : Nat → Int)
    (st : PipeState) (fc : FolderEntry) (pathExists : Bool)
    (files : List (String × Option Doc)) : PipeState :=
  if pathExists = false then
    { st with error := st.error ++ [(fc.name, pathErrMsg fc.path)] }
  else if files = [] then
    { st with empty := st.empty ++ [fc.name] }
  else
    let scanned := scanFiles fc.name files
    let st1 :=
      if scanned.2.2 = [] then st
      else { st with file_errors := dictInsert st.file_errors fc.name scanned.2.2 }
    if scanned.1 = [] then st1
    else
      let out := process_date_warnings parse clock (concatDFs scanned.1) [fc.rule] st.clockIdx
      if endReformatRaises parse out.1 fc.rule then
        { st1 with all_tables := st1.all_tables ++ [out.1],
                   error := st1.error ++ [(fc.name, toDatetimeErrMsg)],
                   clockIdx := out.2.2 }
      else
        { st1 with all_tables := st1.all_tables ++ [out.1],
                   warning_samples := st1.warning_samples ++ folderSampleSets out.1 out.2.1,
                   success := st1.success ++ [(fc.name, scanned.2.1, scanned.2.2.length)],
                   clockIdx := out.2.2 }

/-- One folder iteration reading its environment from the filesystem. -/
def processFolder (fs : FS) (parse : String → Option Int) (clock : Nat → Int)
    (st : PipeState) (fc : FolderEntry) : PipeState :=
  processFolderCore parse clock st fc (fs.exists_path fc.path) (fs.files fc.path)

/-- The folder loop over the configured folder list. -/
def processFolders (fs : FS) (parse : String → Option Int) (clock : Nat → Int)
    (st : PipeState) : List FolderEntry → PipeState
  | [] => st
  | fc :: rest => processFolders fs parse clock (processFolder fs parse clock st fc) rest

/-- One full pipeline run of process_tables over a configuration. -/
def runPipeline (fs : FS) (parse : String → Option Int) (clock : Nat → Int)
    (folders : List FolderEntry) : PipeState :=
  processFolders fs parse clock initState folders

/-- merged_all: present only when some folder produced a dataset. -/
def mergedAll (st : PipeState) : Option DF :=
  if st.all_tables = [] then none else some (concatDFs st.all_tables)

/-- combined_warnings: present only when some warning samples exist. -/
def combinedWarnings (st : PipeState) : Option (List WRow) :=
  if st.warning_samples = [] then none else some st.warning_samples.flatten

/-- Count of report rows with a given status (value_counts lookup). -/
def countStatus (s : Status) (l : List WRow) : Nat :=
  (l.filter (fun w => w.status = s)).length

/-- The 已超期 summary metric (status_summary.get with default 0). -/
def overdueCount (st : PipeState) : Nat :=
  countStatus Status.overdue ((combinedWarnings st).getD [])

/-- The 接近超期 summary metric. -/
def nearCount (st : PipeState) : Nat :=
  countStatus Status.near ((combinedWarnings st).getD [])

/-- The total warning row metric (len(combined_warnings)). -/
def totalWarnings (st : PipeState) : Nat :=
  ((combinedWarnings st).getD []).length

/-- The configuration store: the in-memory session folder list and the
persisted (config.json) folder list.  Writing the file (save_config) is
modelled as replacing the disk list. -/
structure ConfigState where
  mem : List FolderEntry
  disk : List FolderEntry
deriving DecidableEq

/-- Adding a folder entry (form submit, lines 232-244 and 143-155):
append in memory, then save_config. -/
def addFolder (s : ConfigState) (f : FolderEntry) : ConfigState :=
  { mem := s.mem ++ [f], disk := s.mem ++ [f] }

/-- Deleting folder i (lines 259-261): pop in memory, then save_config;
the delete button only exists for indices below the list length. -/
def deleteFolder (s : ConfigState) (i : Nat) : ConfigState :=
  { mem := s.mem.eraseIdx i, disk := s.mem.eraseIdx i }

/-- The 清除现有配置 button (lines 267-269): empties the in-memory list
and reruns, with no save_config call. -/
def clearCurrent (s : ConfigState) : ConfigState :=
  { s with mem := [] }

/-- The 清除所有配置 button (lines 271-274): empties the in-memory list
and calls save_config([]). -/
def clearAll (_ : ConfigState) : ConfigState :=
  { mem := [], disk := [] }

/-- The exported configuration document json.dumps and json.load
round-trip structurally (the serialization itself is the json library):
a top-level object binding the key folders to the folder list. -/
def exportConfigDoc (folders : List FolderEntry) : List (String × List FolderEntry) :=
  [("folders", folders)]

/-- Reading an uploaded configuration document (lines 189-198): the value
under the key folders when present (no further validation), else none
(an error is shown and no state changes). -/
def decodeConfigDoc (doc : List (String × List FolderEntry)) : Option (List FolderEntry) :=
  (doc.find? (fun p => p.1 == "folders")).map (fun p => p.2)

/-- Applying an uploaded configuration document to the store: replace the
session list and save_config when the key is present, else leave the
store untouched. -/
def applyImport (s : ConfigState) (doc : List (String × List FolderEntry)) : ConfigState :=
  match decodeConfigDoc doc with
  | some fl => { mem := fl, disk := fl }
  | none => s

/-- A concrete date parser used by the concrete evaluations below: three
recognizable date strings (day 0, day 10, day 200), everything else
unparseable. -/
def parseDemo (s : String) : Option Int :=
  if s = "D0" then some 0
  else if s = "D10" then some (10 * 86400)
  else if s = "D200" then some (200 * 86400)
  else none

/-- A concrete wall-clock stream frozen at time 0. -/
def clockDemo (_ : Nat) : Int := 0

/-- A concrete wall-clock stream frozen at day 200. -/
def clockDemo200 (_ : Nat) : Int := 200 * 86400

/-- A one-column, one-row dataset whose start value parses to day 0. -/
def dfW1 : DF := { cols := ["S"], rows := [[("S", Cell.raw "D0")]] }

/-- A rule with no end column: warn after 180 elapsed days, 210-day
stability period. -/
def ruleW1 : Rule := { start_column := "S", end_column := none,
                       warning_days := 180, stability_days := 210 }

/-- A rule with end column E: warn after 180 elapsed days, 210-day
stability period. -/
def ruleC1 : Rule := { start_column := "S", end_column := some "E",
                       warning_days := 180, stability_days := 210 }

/-- A document with one table: header S, E; first data row has parseable
dates 200 days apart, second data row has an unparseable end value. -/
def docC1 : Doc := [[["S", "E"], ["D0", "D200"], ["D0", "XX"]]]

/-- A filesystem with a single folder path p1 holding one Word file whose
content is docC1. -/
def fsC1 : FS :=
  { exists_path := fun _ => true,
    files := fun p => if p = "p1" then [("f.docx", some docC1)] else [] }

/-- The folder entry for fsC1 carrying ruleC1. -/
def folderC1 : FolderEntry := { name := "F1", path := "p1", rule := ruleC1 }

/-- The merged dataset the pipeline builds for folderC1. -/
def dfC1m : DF := concatDFs (scanFiles folderC1.name (fsC1.files folderC1.path)).1

/-- A rule whose start column is absent from dfW1. -/
def ruleX : Rule := { start_column := "NOPE", end_column := none,
                      warning_days := 180, stability_days := 210 }

/-- A one-column, one-row dataset whose start value does not parse. -/
def dfW4 : DF := { cols := ["S"], rows := [[("S", Cell.raw "junk")]] }

/-- A concrete folder entry for the configuration-store evaluations. -/
def folderDemo : FolderEntry := { name := "F", path := "p", rule := ruleW1 }

/-- A filesystem whose single folder path p5 holds one unopenable file. -/
def fsC5 : FS :=
  { exists_path := fun _ => true,
    files := fun p => if p = "p5" then [("a.docx", none)] else [] }

/-- The folder entry for fsC5. -/
def folderC5 : FolderEntry := { name := "F5", path := "p5", rule := ruleW1 }

/-- A document with one single-column table holding one parseable row. -/
def docW5 : Doc := [[["S"], ["D0"]]]

/-- A file list with one failing file followed by one good file. -/
def filesW5 : List (String × Option Doc) := [("bad.docx", none), ("good.docx", some docW5)]

/-- The folder entry used with filesW5. -/
def folderW5 : FolderEntry := { name := "F", path := "p", rule := ruleW1 }

/-- A filesystem on which no path exists. -/
def fsW6 : FS := { exists_path := fun _ => false, files := fun _ => [] }

/-- Replacing the value under a present key makes the pair of that key the
first find? hit. -/
lemma find?_map_replace (c : String) (v : Cell) :
    ∀ r : Row, r.any (fun p => p.1 = c) = true →
      (r.map (fun p => if p.1 = c then (c, v) else p)).find? (fun p => decide (p.1 = c)) =
        some (c, v) := by
  intro r
  induction r with
  | nil => intro h; simp at h
  | cons p ps ih =>
    intro h
    simp only [List.map_cons]
    by_cases hp : p.1 = c
    · rw [if_pos hp]
      simp [List.find?]
    · rw [if_neg hp]
      rw [List.find?_cons_of_neg _ (by simp [hp])]
      apply ih
      simpa [List.any_cons, hp] using h

/-- find? misses when no pair carries the key. -/
lemma find?_none_of_any_false (c : String) :
    ∀ r : Row, r.any (fun p => p.1 = c) = false →
      r.find? (fun p => decide (p.1 = c)) = none := by
  intro r
  induction r with
  | nil => intro _; rfl
  | cons p ps ih =>
    intro h
    simp only [List.any_cons, Bool.or_eq_false_iff] at h
    rw [List.find?_cons_of_neg _ (by simp [h.1])]
    exact ih h.2

/-- Looking up the written column of setCell returns the written cell. -/
lemma find?_setCell (r : Row) (c : String) (v : Cell) :
    (setCell r c v).find? (fun p => decide (p.1 = c)) = some (c, v) := by
  unfold setCell
  by_cases h : r.any (fun p => p.1 = c) = true
  · rw [if_pos (by simpa using h)]
    exact find?_map_replace c v r h
  · rw [if_neg (by simpa using h)]
    rw [List.find?_append, find?_none_of_any_false c r (Bool.eq_false_iff.mpr h)]
    simp [List.find?]

/-- Parsing the start column after the in-place conversion yields the
converted value. -/
lemma parseAt_setCell_date (parse : String → Option Int) (r : Row) (c : String)
    (x : Option Int) :
    parseAt parse (setCell r c (Cell.date x)) c = x := by
  unfold parseAt
  rw [find?_setCell]
  rfl

/-- A NaT start date makes the whole day difference NaN. -/
lemma daysOf_none_right : ∀ x : Option Int, daysOf x none = none := by
  intro x; cases x <;> rfl

/-- rowDays is NaN whenever the start value does not parse. -/
lemma rowDays_start_none (parse : String → Option Int) (now : Int)
    (useEnd : Option String) (startCol : String) (r : Row)
    (h : parseAt parse r startCol = none) :
    rowDays parse now useEnd startCol r = none := by
  unfold rowDays
  cases useEnd <;> simp [h, daysOf_none_right]

/-- The rows of the converted DataFrame are the converted rows. -/
lemma convertStartCol_rows (parse : String → Option Int) (df : DF) (c : String) :
    (convertStartCol parse df c).rows =
      df.rows.map (fun r => setCell r c (Cell.date (parseAt parse r c))) := rfl

/-- Conversion of a present column leaves the column list unchanged. -/
lemma convertStartCol_cols (parse : String → Option Int) (df : DF) (c : String)
    (h : c ∈ df.cols) : (convertStartCol parse df c).cols = df.cols := by
  simp [convertStartCol, setCol, h]

/-- Every report row carries an index at or above the starting index. -/
lemma buildRows_idx_ge :
    ∀ (rs : List Row) (bs : List Bool) (ds ms : List (Option Int)) (idx : Nat)
      (wr : WRow), wr ∈ buildRows idx rs bs ds ms → idx ≤ wr.idx := by
  intro rs
  induction rs with
  | nil => intro bs ds ms idx wr h; simp [buildRows] at h
  | cons r rs ih =>
    intro bs ds ms idx wr h
    match bs, ds, ms with
    | [], _, _ => simp [buildRows] at h
    | _ :: _, [], _ => simp [buildRows] at h
    | _ :: _, _ :: _, [] => simp [buildRows] at h
    | b :: bs, d :: ds, m :: ms =>
      simp only [buildRows] at h
      by_cases hb : b = true
      · rw [if_pos hb] at h
        by_cases hs : statusOfOpt m ≠ Status.ok
        · rw [if_pos hs] at h
          rcases List.mem_cons.mp h with he | ht
          · subst he; exact Nat.le_refl idx
          · exact Nat.le_of_succ_le (ih _ _ _ _ _ ht)
        · rw [if_neg hs] at h
          exact Nat.le_of_succ_le (ih _ _ _ _ _ h)
      · rw [if_neg hb] at h
        exact Nat.le_of_succ_le (ih _ _ _ _ _ h)

/-- No report row can carry an index strictly below the starting index. -/
lemma reportedIdx_buildRows_lt (rs : List Row) (bs : List Bool)
    (ds ms : List (Option Int)) (idx i : Nat) (h : i < idx) :
    reportedIdx (buildRows idx rs bs ds ms) i = false := by
  rw [reportedIdx, List.any_eq_false]
  intro wr hwr
  have := buildRows_idx_ge rs bs ds ms idx wr hwr
  simp only [decide_eq_true_eq]
  omega

/-- Characterization of report membership for the aligned columns the
evaluator produces: the i-th row is reported exactly when its mask entry
holds and its status is not 正常. -/
lemma reportedIdx_buildRows_maps (f : Row → Option Int) (w stab : Int) :
    ∀ (rows : List Row) (idx i : Nat) (r : Row), rows[i]? = some r →
      reportedIdx (buildRows idx rows (ruleMask w (rows.map f)) (rows.map f)
        (ruleRemaining stab (rows.map f))) (idx + i) =
      (maskOf w (f r) &&
        decide (statusOfOpt (Option.map (fun d => stab - d) (f r)) ≠ Status.ok)) := by
  intro rows
  induction rows with
  | nil => intro idx i r h; simp at h
  | cons r0 rows ih =>
    intro idx i r h
    simp only [List.map_cons, ruleMask, ruleRemaining] at *
    match i with
    | 0 =>
      rw [List.getElem?_cons_zero] at h
      injection h with h
      subst h
      simp only [Nat.add_zero, buildRows]
      by_cases hb : maskOf w (f r0) = true
      · rw [if_pos hb, hb]
        by_cases hs : statusOfOpt (Option.map (fun d => stab - d) (f r0)) ≠ Status.ok
        · rw [if_pos hs]
          simp [reportedIdx, hs]
        · rw [if_neg hs]
          rw [reportedIdx_buildRows_lt _ _ _ _ _ _ (Nat.lt_succ_self idx)]
          simp only [ne_eq, Decidable.not_not] at hs
          simp [hs]
      · have hb0 : maskOf w (f r0) = false := Bool.eq_false_iff.mpr hb
        rw [if_neg hb, hb0]
        rw [reportedIdx_buildRows_lt _ _ _ _ _ _ (Nat.lt_succ_self idx)]
        simp
    | Nat.succ j =>
      rw [List.getElem?_cons_succ] at h
      have harith : idx + (j + 1) = (idx + 1) + j := by omega
      rw [harith]
      have tails :
          reportedIdx (buildRows idx (r0 :: rows) (maskOf w (f r0) :: List.map (maskOf w) (List.map f rows))
            (f r0 :: List.map f rows)
            (Option.map (fun d => stab - d) (f r0) :: List.map (Option.map (fun d => stab - d)) (List.map f rows)))
            ((idx + 1) + j) =
          reportedIdx (buildRows (idx + 1) rows (List.map (maskOf w) (List.map f rows))
            (List.map f rows) (List.map (Option.map (fun d => stab - d)) (List.map f rows)))
            ((idx + 1) + j) := by
        simp only [buildRows]
        by_cases hb : maskOf w (f r0) = true
        · rw [if_pos hb]
          by_cases hs : statusOfOpt (Option.map (fun d => stab - d) (f r0)) ≠ Status.ok
          · rw [if_pos hs]
            simp only [reportedIdx, List.any_cons]
            have : decide (idx = (idx + 1) + j) = false := by
              simp only [decide_eq_false_iff_not]
              omega
            rw [this]
            simp [reportedIdx]
          · rw [if_neg hs]
        · rw [if_neg hb]
      rw [tails]
      have := ih (idx + 1) j r h
      simpa [ruleMask, ruleRemaining] using this

/-- A report row produced from the aligned evaluator columns carries the
remaining_days value of its row, and its status is the status lambda
applied to that value (and is never 正常). -/
lemma mem_buildRows_maps (f : Row → Option Int) (w stab : Int) :
    ∀ (rows : List Row) (idx i : Nat) (r : Row) (wr : WRow), rows[i]? = some r →
      wr ∈ buildRows idx rows (ruleMask w (rows.map f)) (rows.map f)
        (ruleRemaining stab (rows.map f)) →
      wr.idx = idx + i →
      wr.remaining = Option.map (fun d => stab - d) (f r) ∧
        wr.status = statusOfOpt wr.remaining ∧ wr.status ≠ Status.ok := by
  intro rows
  induction rows with
  | nil => intro idx i r wr h; simp at h
  | cons r0 rows ih =>
    intro idx i r wr h hmem hidx
    simp only [List.map_cons, ruleMask, ruleRemaining] at hmem
    simp only [buildRows] at hmem
    have tail_case :
        wr ∈ buildRows (idx + 1) rows (List.map (maskOf w) (List.map f rows))
          (List.map f rows) (List.map (Option.map (fun d => stab - d)) (List.map f rows)) →
        wr.remaining = Option.map (fun d => stab - d) (f r) ∧
          wr.status = statusOfOpt wr.remaining ∧ wr.status ≠ Status.ok := by
      intro ht
      have hge := buildRows_idx_ge _ _ _ _ _ _ ht
      match i with
      | 0 =>
        exfalso
        omega
      | Nat.succ j =>
        rw [List.getElem?_cons_succ] at h
        have hidx2 : wr.idx = (idx + 1) + j := by omega
        have := ih (idx + 1) j r wr h (by simpa [ruleMask, ruleRemaining] using ht) hidx2
        exact this
    by_cases hb : maskOf w (f r0) = true
    · rw [if_pos hb] at hmem
      by_cases hs : statusOfOpt (Option.map (fun d => stab - d) (f r0)) ≠ Status.ok
      · rw [if_pos hs] at hmem
        rcases List.mem_cons.mp hmem with he | ht
        · subst he
          match i with
          | 0 =>
            rw [List.getElem?_cons_zero] at h
            injection h with h
            subst h
            exact ⟨rfl, rfl, hs⟩
          | Nat.succ j =>
            exfalso
            simp at hidx
        · exact tail_case ht
      · rw [if_neg hs] at hmem
        exact tail_case hmem
    · rw [if_neg hb] at hmem
      exact tail_case hmem

/-- The status of a candidate is not 正常 exactly when remaining_days is at
most 30. -/
lemma statusOfOpt_some_ne_ok_iff (m : Int) :
    statusOfOpt (some m) ≠ Status.ok ↔ m ≤ 30 := by
  simp only [statusOfOpt]
  split_ifs with h1 h2
  · simp only [ne_eq, reduceCtorEq, not_false_eq_true, true_iff]
    omega
  · simp only [ne_eq, reduceCtorEq, not_false_eq_true, true_iff]
    exact h2
  · simp_all

/-- A candidate is 已超期 exactly when remaining_days is at most 0. -/
lemma statusOfOpt_some_overdue_iff (m : Int) :
    statusOfOpt (some m) = Status.overdue ↔ m ≤ 0 := by
  simp only [statusOfOpt]
  split_ifs with h1 h2
  · simp [h1]
  · simp_all
  · simp_all

/-- A candidate is 接近超期 exactly when remaining_days is in (0, 30]. -/
lemma statusOfOpt_some_near_iff (m : Int) :
    statusOfOpt (some m) = Status.near ↔ (0 < m ∧ m ≤ 30) := by
  simp only [statusOfOpt]
  split_ifs with h1 h2
  · simp_all
  · simp_all
  · simp_all

/-- Evaluation of process_date_warnings on a single applicable rule. -/
lemma process_date_warnings_single (parse : String → Option Int) (clock : Nat → Int)
    (df : DF) (rule : Rule) (k : Nat) (hcol : rule.start_column ∈ df.cols) :
    process_date_warnings parse clock df [rule] k =
      (convertStartCol parse df rule.start_column,
       (if (ruleMask rule.warning_days
              (ruleDaysList parse (clock k) (convertStartCol parse df rule.start_column) rule)).any
              (fun b => b) then
          [singleRuleResult parse (clock k) (convertStartCol parse df rule.start_column) rule]
        else []),
       if (endMode rule (convertStartCol parse df rule.start_column)).isNone then k + 1 else k) := by
  simp only [process_date_warnings, processRule, if_pos hcol]
  by_cases hany : (ruleMask rule.warning_days
      (ruleDaysList parse (clock k) (convertStartCol parse df rule.start_column) rule)).any
      (fun b => b) = true
  · simp [hany]
  · simp only [Bool.not_eq_true] at hany
    simp [hany]

/-- Evaluation of process_date_warnings when the single rule is skipped. -/
lemma process_date_warnings_skip (parse : String → Option Int) (clock : Nat → Int)
    (df : DF) (rule : Rule) (k : Nat) (hcol : rule.start_column ∉ df.cols) :
    process_date_warnings parse clock df [rule] k = (df, [], k) := by
  simp [process_date_warnings, processRule, hcol]

/-- C1 (amended, claim C1): at the per-folder report-building stage
(source lines 94 and 343-351), for every row whose dates parse
successfully (its days_diff entry is a number e), the row enters the
per-folder warning report iff e > warning_days (strictly) and
stability_days - e <= 30; among reported rows, status is 已超期 iff
remaining <= 0 and 接近超期 iff 0 < remaining <= 30 (正常 rows, remaining
> 30, are excluded).  The pipeline-level counterexample below shows why
the claim is restricted to this stage. -/
theorem two_gate_folder_classification (parse : String → Option Int) (clock : Nat → Int)
    (df : DF) (rule : Rule) (k : Nat) (i : Nat) (e : Int)
    (hcol : rule.start_column ∈ df.cols)
    (hdays : (ruleDaysList parse (clock k) (convertStartCol parse df rule.start_column) rule)[i]? =
      some (some e)) :
    (reportedIdx (folderReport parse clock df rule k) i = true ↔
      (rule.warning_days < e ∧ rule.stability_days - e ≤ 30)) ∧
    (∀ wr ∈ folderReport parse clock df rule k, wr.idx = i →
      ((wr.status = Status.overdue ↔ rule.stability_days - e ≤ 0) ∧
       (wr.status = Status.near ↔ (0 < rule.stability_days - e ∧ rule.stability_days - e ≤ 30)))) := by
  have hmap : ruleDaysList parse (clock k) (convertStartCol parse df rule.start_column) rule =
      (convertStartCol parse df rule.start_column).rows.map
        (rowDays parse (clock k) (endMode rule (convertStartCol parse df rule.start_column))
          rule.start_column) := rfl
  rw [hmap, List.getElem?_map] at hdays
  obtain ⟨r, hr, hfr⟩ : ∃ r, (convertStartCol parse df rule.start_column).rows[i]? = some r ∧
      rowDays parse (clock k) (endMode rule (convertStartCol parse df rule.start_column))
        rule.start_column r = some e := by
    cases hx : (convertStartCol parse df rule.start_column).rows[i]? with
    | none => rw [hx] at hdays; simp at hdays
    | some r => rw [hx] at hdays; simp at hdays; exact ⟨r, rfl, hdays⟩
  unfold folderReport
  rw [process_date_warnings_single parse clock df rule k hcol]
  by_cases hany : (ruleMask rule.warning_days
      (ruleDaysList parse (clock k) (convertStartCol parse df rule.start_column) rule)).any
      (fun b => b) = true
  · rw [if_pos hany]
    have hrep := reportedIdx_buildRows_maps
      (rowDays parse (clock k) (endMode rule (convertStartCol parse df rule.start_column))
        rule.start_column)
      rule.warning_days rule.stability_days
      (convertStartCol parse df rule.start_column).rows 0 i r hr
    rw [Nat.zero_add, hfr] at hrep
    have hsam : buildWarningSamples (convertStartCol parse df rule.start_column)
        (singleRuleResult parse (clock k) (convertStartCol parse df rule.start_column) rule) =
        buildRows 0 (convertStartCol parse df rule.start_column).rows
          (ruleMask rule.warning_days ((convertStartCol parse df rule.start_column).rows.map
            (rowDays parse (clock k) (endMode rule (convertStartCol parse df rule.start_column))
              rule.start_column)))
          ((convertStartCol parse df rule.start_column).rows.map
            (rowDays parse (clock k) (endMode rule (convertStartCol parse df rule.start_column))
              rule.start_column))
          (ruleRemaining rule.stability_days ((convertStartCol parse df rule.start_column).rows.map
            (rowDays parse (clock k) (endMode rule (convertStartCol parse df rule.start_column))
              rule.start_column))) := rfl
    by_cases hs : buildWarningSamples (convertStartCol parse df rule.start_column)
        (singleRuleResult parse (clock k) (convertStartCol parse df rule.start_column) rule) = []
    · constructor
      · rw [show (folderSampleSets (convertStartCol parse df rule.start_column,
            [singleRuleResult parse (clock k) (convertStartCol parse df rule.start_column) rule],
            if (endMode rule (convertStartCol parse df rule.start_column)).isNone then k + 1
            else k).1
            (convertStartCol parse df rule.start_column,
            [singleRuleResult parse (clock k) (convertStartCol parse df rule.start_column) rule],
            if (endMode rule (convertStartCol parse df rule.start_column)).isNone then k + 1
            else k).2.1).flatten = ([] : List WRow) from by
          simp [folderSampleSets, hs]]
        have : reportedIdx (buildWarningSamples (convertStartCol parse df rule.start_column)
            (singleRuleResult parse (clock k) (convertStartCol parse df rule.start_column) rule)) i =
            (maskOf rule.warning_days (some e) &&
              decide (statusOfOpt (Option.map (fun d => rule.stability_days - d) (some e)) ≠
                Status.ok)) := by
          rw [hsam]; exact hrep
        rw [hs] at this
        simp only [reportedIdx, List.any_nil] at this ⊢
        constructor
        · intro hfalse; exact absurd hfalse (by simp)
        · intro hgate
          exfalso
          have htrue : (maskOf rule.warning_days (some e) &&
              decide (statusOfOpt (Option.map (fun d => rule.stability_days - d) (some e)) ≠
                Status.ok)) = true := by
            have hmap2 : Option.map (fun d => rule.stability_days - d) (some e) =
                some (rule.stability_days - e) := rfl
            rw [hmap2]
            simp only [maskOf, Bool.and_eq_true, decide_eq_true_eq]
            exact ⟨hgate.1, (statusOfOpt_some_ne_ok_iff _).mpr hgate.2⟩
          rw [htrue] at this
          exact absurd this (by simp)
      · intro wr hwr
        exfalso
        revert hwr
        simp [folderSampleSets, hs]
    · have hform : (folderSampleSets (convertStartCol parse df rule.start_column,
          [singleRuleResult parse (clock k) (convertStartCol parse df rule.start_column) rule],
          if (endMode rule (convertStartCol parse df rule.start_column)).isNone then k + 1
          else k).1
          (convertStartCol parse df rule.start_column,
          [singleRuleResult parse (clock k) (convertStartCol parse df rule.start_column) rule],
          if (endMode rule (convertStartCol parse df rule.start_column)).isNone then k + 1
          else k).2.1).flatten =
          buildWarningSamples (convertStartCol parse df rule.start_column)
            (singleRuleResult parse (clock k) (convertStartCol parse df rule.start_column) rule) := by
        simp [folderSampleSets, hs]
      rw [hform]
      constructor
      · rw [hsam, hrep]
        have hmap2 : Option.map (fun d => rule.stability_days - d) (some e) =
            some (rule.stability_days - e) := rfl
        rw [hmap2]
        simp only [maskOf, Bool.and_eq_true, decide_eq_true_eq, statusOfOpt_some_ne_ok_iff]
      · intro wr hwr hidx
        have hmem := mem_buildRows_maps
          (rowDays parse (clock k) (endMode rule (convertStartCol parse df rule.start_column))
            rule.start_column)
          rule.warning_days rule.stability_days
          (convertStartCol parse df rule.start_column).rows 0 i r wr hr
          (by rw [← hsam]; exact hwr) (by omega)
        obtain ⟨hrem, hstat, _⟩ := hmem
        rw [hfr] at hrem
        have hmap2 : Option.map (fun d => rule.stability_days - d) (some e) =
            some (rule.stability_days - e) := rfl
        rw [hmap2] at hrem
        rw [hstat, hrem]
        exact ⟨statusOfOpt_some_overdue_iff _, statusOfOpt_some_near_iff _⟩
  · simp only [Bool.not_eq_true] at hany
    rw [if_neg (by simp [hany])]
    have hrepempty : (folderSampleSets (convertStartCol parse df rule.start_column,
        ([] : List WarningResult),
        if (endMode rule (convertStartCol parse df rule.start_column)).isNone then k + 1
        else k).1
        (convertStartCol parse df rule.start_column,
        ([] : List WarningResult),
        if (endMode rule (convertStartCol parse df rule.start_column)).isNone then k + 1
        else k).2.1).flatten = ([] : List WRow) := by
      simp [folderSampleSets]
    rw [hrepempty]
    have hmaskfalse : maskOf rule.warning_days (some e) = false := by
      have hmem : maskOf rule.warning_days (some e) ∈
          ruleMask rule.warning_days
            (ruleDaysList parse (clock k) (convertStartCol parse df rule.start_column) rule) := by
        apply List.getElem?_mem
        show (ruleMask rule.warning_days
          (ruleDaysList parse (clock k) (convertStartCol parse df rule.start_column) rule))[i]? =
          some (maskOf rule.warning_days (some e))
        rw [ruleMask, List.getElem?_map, hmap, List.getElem?_map, hr]
        simp [hfr]
      have := List.any_eq_false.mp hany _ hmem
      simpa using this
    constructor
    · simp only [reportedIdx, List.any_nil]
      constructor
      · intro hfalse; exact absurd hfalse (by simp)
      · intro hgate
        exfalso
        simp only [maskOf, decide_eq_false_iff_not] at hmaskfalse
        exact hmaskfalse hgate.1
    · intro wr hwr
      simp at hwr

/-- C1 witness: a concrete row 200 days old under ruleW1 (no end column,
clock at day 200): candidate with remaining 10, so NEAR and reported. -/
theorem two_gate_folder_classification_witness :
    (reportedIdx (folderReport parseDemo clockDemo200 dfW1 ruleW1 0) 0 = true ↔
      (ruleW1.warning_days < 200 ∧ ruleW1.stability_days - 200 ≤ 30)) ∧
    (∀ wr ∈ folderReport parseDemo clockDemo200 dfW1 ruleW1 0, wr.idx = 0 →
      ((wr.status = Status.overdue ↔ ruleW1.stability_days - 200 ≤ 0) ∧
       (wr.status = Status.near ↔
         (0 < ruleW1.stability_days - 200 ∧ ruleW1.stability_days - 200 ≤ 30)))) :=
  two_gate_folder_classification parseDemo clockDemo200 dfW1 ruleW1 0 0 200 (by decide) (by decide)

/-- C1 counterexample (claim C1 as stated, at the whole-program level):
in folderC1 the first data row parses (elapsed 200 > 180, remaining
10 <= 30) and the folder-level classification reports it, yet the end
result of the run holds no warning rows at all, because the unparseable
end value in the second row makes the end-column display reformat raise and
the folder is recorded as errored before its warning rows are collected. -/
theorem two_gate_final_report_counterexample :
    (ruleDaysList parseDemo (clockDemo 0)
        (convertStartCol parseDemo dfC1m ruleC1.start_column) ruleC1)[0]? = some (some 200) ∧
    ruleC1.warning_days < 200 ∧ ruleC1.stability_days - 200 ≤ 30 ∧
    reportedIdx (folderReport parseDemo clockDemo dfC1m ruleC1 0) 0 = true ∧
    (runPipeline fsC1 parseDemo clockDemo [folderC1]).warning_samples = [] ∧
    combinedWarnings (runPipeline fsC1 parseDemo clockDemo [folderC1]) = none ∧
    (runPipeline fsC1 parseDemo clockDemo [folderC1]).error = [(folderC1.name, toDatetimeErrMsg)] := by
  decide

/-- The folder report of a single applicable rule is either empty or the
warning samples of the result of that rule. -/
lemma folderReport_cases (parse : String → Option Int) (clock : Nat → Int)
    (df : DF) (rule : Rule) (k : Nat) (hcol : rule.start_column ∈ df.cols) :
    folderReport parse clock df rule k = [] ∨
    folderReport parse clock df rule k =
      buildWarningSamples (convertStartCol parse df rule.start_column)
        (singleRuleResult parse (clock k) (convertStartCol parse df rule.start_column) rule) := by
  unfold folderReport
  rw [process_date_warnings_single parse clock df rule k hcol]
  by_cases hany : (ruleMask rule.warning_days
      (ruleDaysList parse (clock k) (convertStartCol parse df rule.start_column) rule)).any
      (fun b => b) = true
  · rw [if_pos hany]
    by_cases hs : buildWarningSamples (convertStartCol parse df rule.start_column)
        (singleRuleResult parse (clock k) (convertStartCol parse df rule.start_column) rule) = []
    · left
      simp [folderSampleSets, hs]
    · right
      simp [folderSampleSets, hs]
  · rw [if_neg hany]
    left
    simp [folderSampleSets]

/-- C9 (claim C9): a rule whose start column is absent from the dataset
columns is silently skipped by process_date_warnings: the DataFrame is
returned without any conversion for that rule, no warning result is
produced for it, no clock reading is consumed, and evaluation continues
with the remaining rules. -/
theorem missing_start_column_skips_rule (parse : String → Option Int) (clock : Nat → Int)
    (df : DF) (rule : Rule) (rest : List Rule) (k : Nat)
    (hcol : rule.start_column ∉ df.cols) :
    process_date_warnings parse clock df (rule :: rest) k =
      process_date_warnings parse clock df rest k := by
  simp [process_date_warnings, processRule, hcol]

/-- C9 witness: the concrete rule with start column NOPE over dfW1 is
skipped, leaving the evaluation of the remaining rule untouched. -/
theorem missing_start_column_skips_rule_witness :
    process_date_warnings parseDemo clockDemo200 dfW1 (ruleX :: [ruleW1]) 0 =
      process_date_warnings parseDemo clockDemo200 dfW1 [ruleW1] 0 :=
  missing_start_column_skips_rule parseDemo clockDemo200 dfW1 ruleX [ruleW1] 0 (by decide)

/-- C3 (claim C3): end-date selection.  The pipeline always invokes the
evaluator with exactly one rule (source line 333), so one evaluator
invocation is process_date_warnings over [rule].  When end_column is
configured and present in the dataset columns, days_diff is computed
from the parsed end column values and no wall-clock reading is consumed;
otherwise the single wall-clock reading clock k is captured once for the
invocation (the counter advances from k to k + 1) and the days_diff of
every row uses that same value. -/
theorem end_date_selection (parse : String → Option Int) (clock : Nat → Int)
    (df : DF) (rule : Rule) (k : Nat) (hcol : rule.start_column ∈ df.cols) :
    (∀ w ∈ (process_date_warnings parse clock df [rule] k).2.1,
        w.days_diff =
          ruleDaysList parse (clock k) (convertStartCol parse df rule.start_column) rule) ∧
    (∀ ec, rule.end_column = some ec →
      ec ∈ (convertStartCol parse df rule.start_column).cols →
      (ruleDaysList parse (clock k) (convertStartCol parse df rule.start_column) rule =
        (convertStartCol parse df rule.start_column).rows.map
          (fun r => daysOf (parseAt parse r ec) (parseAt parse r rule.start_column)) ∧
       (process_date_warnings parse clock df [rule] k).2.2 = k)) ∧
    (endMode rule (convertStartCol parse df rule.start_column) = none →
      (ruleDaysList parse (clock k) (convertStartCol parse df rule.start_column) rule =
        (convertStartCol parse df rule.start_column).rows.map
          (fun r => daysOf (some (clock k)) (parseAt parse r rule.start_column)) ∧
       (process_date_warnings parse clock df [rule] k).2.2 = k + 1)) := by
  rw [process_date_warnings_single parse clock df rule k hcol]
  refine ⟨?_, ?_, ?_⟩
  · intro w hw
    by_cases hany : (ruleMask rule.warning_days
        (ruleDaysList parse (clock k) (convertStartCol parse df rule.start_column) rule)).any
        (fun b => b) = true
    · rw [if_pos hany] at hw
      rcases List.mem_singleton.mp hw with rfl
      rfl
    · rw [if_neg hany] at hw
      simp at hw
  · intro ec hec hmem
    have hmode : endMode rule (convertStartCol parse df rule.start_column) = some ec := by
      simp [endMode, hec, hmem]
    constructor
    · rw [ruleDaysList, hmode]
      rfl
    · simp [hmode]
  · intro hmode
    constructor
    · rw [ruleDaysList, hmode]
      rfl
    · simp [hmode]

/-- C3 witness: the concrete single-rule invocation over dfW1 (no end
column) consumes exactly one clock reading and evaluates every row
against that one reading. -/
theorem end_date_selection_witness :
    (∀ w ∈ (process_date_warnings parseDemo clockDemo200 dfW1 [ruleW1] 0).2.1,
        w.days_diff =
          ruleDaysList parseDemo (clockDemo200 0)
            (convertStartCol parseDemo dfW1 ruleW1.start_column) ruleW1) ∧
    (∀ ec, ruleW1.end_column = some ec →
      ec ∈ (convertStartCol parseDemo dfW1 ruleW1.start_column).cols →
      (ruleDaysList parseDemo (clockDemo200 0)
          (convertStartCol parseDemo dfW1 ruleW1.start_column) ruleW1 =
        (convertStartCol parseDemo dfW1 ruleW1.start_column).rows.map
          (fun r => daysOf (parseAt parseDemo r ec) (parseAt parseDemo r ruleW1.start_column)) ∧
       (process_date_warnings parseDemo clockDemo200 dfW1 [ruleW1] 0).2.2 = 0)) ∧
    (endMode ruleW1 (convertStartCol parseDemo dfW1 ruleW1.start_column) = none →
      (ruleDaysList parseDemo (clockDemo200 0)
          (convertStartCol parseDemo dfW1 ruleW1.start_column) ruleW1 =
        (convertStartCol parseDemo dfW1 ruleW1.start_column).rows.map
          (fun r => daysOf (some (clockDemo200 0)) (parseAt parseDemo r ruleW1.start_column)) ∧
       (process_date_warnings parseDemo clockDemo200 dfW1 [ruleW1] 0).2.2 = 0 + 1)) :=
  end_date_selection parseDemo clockDemo200 dfW1 ruleW1 0 (by decide)

/-- C4 (claim C4): a row whose start_column value does not parse as a date
is excluded from warning candidacy entirely: it never appears in the
per-folder warning report, so it is classified as neither 已超期 nor
接近超期; the model is total, so no error is raised for it. -/
theorem date_parse_failure_excluded (parse : String → Option Int) (clock : Nat → Int)
    (df : DF) (rule : Rule) (k i : Nat) (r : Row)
    (hrow : df.rows[i]? = some r)
    (hp : parseAt parse r rule.start_column = none) :
    reportedIdx (folderReport parse clock df rule k) i = false ∧
    ∀ wr ∈ folderReport parse clock df rule k, wr.idx ≠ i := by
  have main : reportedIdx (folderReport parse clock df rule k) i = false := by
    by_cases hcol : rule.start_column ∈ df.cols
    · have hr1 : (convertStartCol parse df rule.start_column).rows[i]? =
          some (setCell r rule.start_column (Cell.date none)) := by
        rw [convertStartCol_rows, List.getElem?_map, hrow]
        simp [hp]
      rcases folderReport_cases parse clock df rule k hcol with hnil | hsam
      · rw [hnil]
        rfl
      · rw [hsam]
        have hrep := reportedIdx_buildRows_maps
          (rowDays parse (clock k) (endMode rule (convertStartCol parse df rule.start_column))
            rule.start_column)
          rule.warning_days rule.stability_days
          (convertStartCol parse df rule.start_column).rows 0 i
          (setCell r rule.start_column (Cell.date none)) hr1
        rw [Nat.zero_add] at hrep
        have hf : rowDays parse (clock k)
            (endMode rule (convertStartCol parse df rule.start_column)) rule.start_column
            (setCell r rule.start_column (Cell.date none)) = none := by
          apply rowDays_start_none
          exact parseAt_setCell_date parse r rule.start_column none
        rw [hf] at hrep
        have hform : buildWarningSamples (convertStartCol parse df rule.start_column)
            (singleRuleResult parse (clock k) (convertStartCol parse df rule.start_column) rule) =
            buildRows 0 (convertStartCol parse df rule.start_column).rows
              (ruleMask rule.warning_days ((convertStartCol parse df rule.start_column).rows.map
                (rowDays parse (clock k)
                  (endMode rule (convertStartCol parse df rule.start_column)) rule.start_column)))
              ((convertStartCol parse df rule.start_column).rows.map
                (rowDays parse (clock k)
                  (endMode rule (convertStartCol parse df rule.start_column)) rule.start_column))
              (ruleRemaining rule.stability_days
                ((convertStartCol parse df rule.start_column).rows.map
                  (rowDays parse (clock k)
                    (endMode rule (convertStartCol parse df rule.start_column))
                    rule.start_column))) := rfl
        rw [hform, hrep]
        rfl
    · unfold folderReport
      rw [process_date_warnings_skip parse clock df rule k hcol]
      rfl
  refine ⟨main, ?_⟩
  intro wr hwr
  rw [reportedIdx, List.any_eq_false] at main
  have := main wr hwr
  simpa using this

/-- C4 witness: the concrete row with unparseable start value junk is
absent from the warning report of ruleW1 over dfW4. -/
theorem date_parse_failure_excluded_witness :
    reportedIdx (folderReport parseDemo clockDemo200 dfW4 ruleW1 0) 0 = false ∧
    ∀ wr ∈ folderReport parseDemo clockDemo200 dfW4 ruleW1 0, wr.idx ≠ 0 :=
  date_parse_failure_excluded parseDemo clockDemo200 dfW4 ruleW1 0 0
    [("S", Cell.raw "junk")] (by decide) (by decide)

/-- C2 counterexample (claim C2 as stated): the 清除现有配置 button
clears the in-memory folder list without calling save_config, so right
after this bulk clear the in-memory list differs from the persisted one. -/
theorem clear_current_unflushed_counterexample :
    (clearCurrent { mem := [folderDemo], disk := [folderDemo] }).mem ≠
      (clearCurrent { mem := [folderDemo], disk := [folderDemo] }).disk := by
  decide

/-- C2 (amended, claim C2): every mutation of the configuration store
except the session-only 清除现有配置 clear is immediately flushed: after
add, individual delete, 清除所有配置 and an import carrying the folders
key, the persisted list equals the in-memory list; an import without the
folders key changes nothing; the session-only clear empties memory but
leaves persisted storage untouched. -/
theorem config_mutations_flush :
    (∀ s f, (addFolder s f).disk = (addFolder s f).mem) ∧
    (∀ s i, (deleteFolder s i).disk = (deleteFolder s i).mem) ∧
    (∀ s, (clearAll s).disk = (clearAll s).mem) ∧
    (∀ s doc, (applyImport s doc).disk = (applyImport s doc).mem ∨ applyImport s doc = s) ∧
    (∀ s, (clearCurrent s).mem = [] ∧ (clearCurrent s).disk = s.disk) := by
  refine ⟨fun s f => rfl, fun s i => rfl, fun s => rfl, ?_, fun s => ⟨rfl, rfl⟩⟩
  intro s doc
  rcases h : decodeConfigDoc doc with _ | fl
  · right
    simp [applyImport, h]
  · left
    simp [applyImport, h]

/-- C7 (claim C7): configuration round-trip: reading back the exported
configuration document yields exactly the exported ordered folder list
(export and the read side of the uploaded document use the same schema;
the json text serialization in between is the json library and is
structure-preserving). -/
theorem config_round_trip (folders : List FolderEntry) :
    decodeConfigDoc (exportConfigDoc folders) = some folders := rfl

/-- The processed count of the per-file loop counts exactly the files
whose extraction yields a nonempty table list. -/
lemma scanFiles_processed (nm : String) :
    ∀ files : List (String × Option Doc),
      (scanFiles nm files).2.1 =
        (files.filter (fun f => !(extract_tables_from_word f.2).isEmpty)).length := by
  intro files
  induction files with
  | nil => rfl
  | cons f rest ih =>
    rcases f with ⟨n, doc⟩
    simp only [scanFiles]
    by_cases h : (extract_tables_from_word doc).isEmpty = true
    · rw [if_pos h]
      simp [List.filter_cons, h, ih]
    · rw [if_neg h]
      simp only [List.filter_cons]
      rw [Bool.eq_false_iff.mpr h]
      simp [ih]

/-- The failed list of the per-file loop is exactly the names of the
files whose extraction yields an empty table list, in order. -/
lemma scanFiles_failed (nm : String) :
    ∀ files : List (String × Option Doc),
      (scanFiles nm files).2.2 =
        (files.filter (fun f => (extract_tables_from_word f.2).isEmpty)).map Prod.fst := by
  intro files
  induction files with
  | nil => rfl
  | cons f rest ih =>
    rcases f with ⟨n, doc⟩
    simp only [scanFiles]
    by_cases h : (extract_tables_from_word doc).isEmpty = true
    · rw [if_pos h]
      simp [List.filter_cons, h, ih]
    · rw [if_neg h]
      simp only [List.filter_cons]
      rw [Bool.eq_false_iff.mpr h]
      simp [ih]

/-- The folder table list is empty exactly when the extraction of every
file came back empty. -/
lemma scanFiles_tables_nil (nm : String) :
    ∀ files : List (String × Option Doc),
      ((scanFiles nm files).1 = [] ↔ ∀ f ∈ files, extract_tables_from_word f.2 = []) := by
  intro files
  induction files with
  | nil => simp [scanFiles]
  | cons f rest ih =>
    rcases f with ⟨n, doc⟩
    simp only [scanFiles]
    by_cases h : (extract_tables_from_word doc).isEmpty = true
    · rw [if_pos h]
      have hd : extract_tables_from_word doc = [] := List.isEmpty_iff.mp h
      simp [hd, ih]
    · rw [if_neg h]
      have hd : extract_tables_from_word doc ≠ [] := by
        intro hc
        exact h (by simp [hc])
      constructor
      · intro hc
        exfalso
        rcases List.append_eq_nil.mp hc with ⟨hmapnil, _⟩
        exact hd (List.map_eq_nil_iff.mp hmapnil)
      · intro hall
        exact absurd (hall (n, doc) (List.mem_cons_self _ _)) hd

/-- The per-file loop only sees a document through its extraction result. -/
lemma scanFiles_congr_doc (nm n : String) (d₁ d₂ : Option Doc)
    (h : extract_tables_from_word d₁ = extract_tables_from_word d₂) :
    ∀ pre post : List (String × Option Doc),
      scanFiles nm (pre ++ (n, d₁) :: post) = scanFiles nm (pre ++ (n, d₂) :: post) := by
  intro pre
  induction pre with
  | nil =>
    intro post
    simp only [List.nil_append, scanFiles, h]
  | cons f rest ih =>
    intro post
    rcases f with ⟨n0, doc0⟩
    simp only [List.cons_append, scanFiles, List.append_eq]
    rw [ih]

/-- C10 (claim C10): a document that opens but contains zero tables is
indistinguishable, at the whole folder-processing interface, from a
document whose extraction raised: extract_tables_from_word returns [] in
both cases, the folder processing state is identical under the swap,
and the file name is recorded in the per-folder failed list (hence
counted among its failures). -/
theorem zero_table_file_indistinguishable (parse : String → Option Int) (clock : Nat → Int)
    (st : PipeState) (fc : FolderEntry) (pathExists : Bool) (n : String)
    (pre post : List (String × Option Doc)) :
    extract_tables_from_word (some ([] : Doc)) = extract_tables_from_word none ∧
    processFolderCore parse clock st fc pathExists (pre ++ (n, some ([] : Doc)) :: post) =
      processFolderCore parse clock st fc pathExists (pre ++ (n, none) :: post) ∧
    n ∈ (scanFiles fc.name (pre ++ (n, some ([] : Doc)) :: post)).2.2 := by
  refine ⟨rfl, ?_, ?_⟩
  · have hscan := scanFiles_congr_doc fc.name n (some ([] : Doc)) none rfl pre post
    unfold processFolderCore
    rw [hscan]
    rw [if_neg (show ¬(pre ++ (n, some ([] : Doc)) :: post = []) from by simp)]
    rw [if_neg (show ¬(pre ++ ((n, none) : String × Option Doc) :: post = []) from by simp)]
  · rw [scanFiles_failed]
    have hmem : (n, some ([] : Doc)) ∈ pre ++ (n, some ([] : Doc)) :: post := by
      simp
    have hfil : (n, some ([] : Doc)) ∈
        (pre ++ (n, some ([] : Doc)) :: post).filter
          (fun f => (extract_tables_from_word f.2).isEmpty) := by
      rw [List.mem_filter]
      exact ⟨hmem, rfl⟩
    exact List.mem_map_of_mem Prod.fst hfil

/-- C5 counterexample (claim C5 as stated): in folderC5 extraction fails
for the (only) file a.docx, so the file is recorded as failed, yet the
folder reports no success entry at all (success is empty), because the
success entry is only written when the folder produced at least one
table. -/
theorem all_failed_folder_counterexample :
    (runPipeline fsC5 parseDemo clockDemo [folderC5]).file_errors = [("F5", ["a.docx"])] ∧
    (runPipeline fsC5 parseDemo clockDemo [folderC5]).success = [] ∧
    (runPipeline fsC5 parseDemo clockDemo [folderC5]).error = [] ∧
    (runPipeline fsC5 parseDemo clockDemo [folderC5]).empty = [] := by
  decide

/-- C5 (amended, claim C5): per-file failure isolation over an existing
folder path: a file whose extraction fails is recorded in the per-folder
failed list, every file of the folder is still processed (the processed
and failed counts partition the whole file list), the failed list is
written into file_errors, and no folder-level error or empty status is
recorded; provided additionally that at least one file yields tables and
the end-column reformat does not raise, the folder reports a success
entry carrying the processed count and the failed count.  A folder in
which every file fails (see the counterexample) reports no success
entry. -/
theorem per_file_failure_isolation (parse : String → Option Int) (clock : Nat → Int)
    (st : PipeState) (fc : FolderEntry) (files : List (String × Option Doc))
    (n₀ : String) (d₀ : Option Doc)
    (hmem : (n₀, d₀) ∈ files)
    (hfail : extract_tables_from_word d₀ = [])
    (hsucc : ∃ f ∈ files, extract_tables_from_word f.2 ≠ [])
    (hnoraise : endReformatRaises parse
      (process_date_warnings parse clock (concatDFs (scanFiles fc.name files).1)
        [fc.rule] st.clockIdx).1 fc.rule = false) :
    n₀ ∈ (files.filter (fun f => (extract_tables_from_word f.2).isEmpty)).map Prod.fst ∧
    (processFolderCore parse clock st fc true files).success =
      st.success ++ [(fc.name,
        (files.filter (fun f => !(extract_tables_from_word f.2).isEmpty)).length,
        ((files.filter (fun f => (extract_tables_from_word f.2).isEmpty)).map Prod.fst).length)] ∧
    (processFolderCore parse clock st fc true files).file_errors =
      dictInsert st.file_errors fc.name
        ((files.filter (fun f => (extract_tables_from_word f.2).isEmpty)).map Prod.fst) ∧
    (processFolderCore parse clock st fc true files).error = st.error ∧
    (processFolderCore parse clock st fc true files).empty = st.empty := by
  have hfiles_ne : ¬(files = []) := by
    intro hc
    rw [hc] at hmem
    simp at hmem
  have hfailed_eq := scanFiles_failed fc.name files
  have hproc_eq := scanFiles_processed fc.name files
  have hmemfail : n₀ ∈ (scanFiles fc.name files).2.2 := by
    rw [hfailed_eq]
    have hfil : (n₀, d₀) ∈ files.filter (fun f => (extract_tables_from_word f.2).isEmpty) := by
      rw [List.mem_filter]
      exact ⟨hmem, by simp [hfail]⟩
    simpa using List.mem_map_of_mem Prod.fst hfil
  have hfailed_ne : ¬((scanFiles fc.name files).2.2 = []) := by
    intro hc
    rw [hc] at hmemfail
    simp at hmemfail
  have htables_ne : ¬((scanFiles fc.name files).1 = []) := by
    intro hc
    obtain ⟨f, hf, hfe⟩ := hsucc
    exact hfe ((scanFiles_tables_nil fc.name files).mp hc f hf)
  refine ⟨by rw [← hfailed_eq]; exact hmemfail, ?_⟩
  simp only [processFolderCore]
  rw [if_neg (show ¬(true = false) from by simp)]
  rw [if_neg hfiles_ne]
  rw [if_neg hfailed_ne, if_neg htables_ne]
  rw [if_neg (show ¬(endReformatRaises parse
      (process_date_warnings parse clock (concatDFs (scanFiles fc.name files).1)
        [fc.rule] st.clockIdx).1 fc.rule = true) from by simp [hnoraise])]
  refine ⟨?_, ?_, ?_, ?_⟩ <;> simp [hfailed_eq, hproc_eq]

/-- C5 witness: a folder with one failing file and one good file records
bad.docx as failed, still processes both files, and reports a success
entry with processed count 1 and failed count 1. -/
theorem per_file_failure_isolation_witness :
    "bad.docx" ∈ (filesW5.filter (fun f => (extract_tables_from_word f.2).isEmpty)).map Prod.fst ∧
    (processFolderCore parseDemo clockDemo initState folderW5 true filesW5).success =
      initState.success ++ [(folderW5.name,
        (filesW5.filter (fun f => !(extract_tables_from_word f.2).isEmpty)).length,
        ((filesW5.filter (fun f => (extract_tables_from_word f.2).isEmpty)).map Prod.fst).length)] ∧
    (processFolderCore parseDemo clockDemo initState folderW5 true filesW5).file_errors =
      dictInsert initState.file_errors folderW5.name
        ((filesW5.filter (fun f => (extract_tables_from_word f.2).isEmpty)).map Prod.fst) ∧
    (processFolderCore parseDemo clockDemo initState folderW5 true filesW5).error =
      initState.error ∧
    (processFolderCore parseDemo clockDemo initState folderW5 true filesW5).empty =
      initState.empty :=
  per_file_failure_isolation parseDemo clockDemo initState folderW5 filesW5 "bad.docx" none
    (by decide) (by decide) (by decide) (by decide)

/-- The folder loop splits over list append. -/
lemma processFolders_append (fs : FS) (parse : String → Option Int) (clock : Nat → Int) :
    ∀ (xs ys : List FolderEntry) (st : PipeState),
      processFolders fs parse clock st (xs ++ ys) =
        processFolders fs parse clock (processFolders fs parse clock st xs) ys := by
  intro xs
  induction xs with
  | nil => intro ys st; rfl
  | cons x rest ih =>
    intro ys st
    simp only [List.cons_append, processFolders]
    exact ih ys _

/-- A folder whose path does not exist only appends one folder-level
error to the state. -/
lemma processFolder_missing_path (fs : FS) (parse : String → Option Int)
    (clock : Nat → Int) (st : PipeState) (b : FolderEntry)
    (hb : fs.exists_path b.path = false) :
    processFolder fs parse clock st b =
      { st with error := st.error ++ [(b.name, pathErrMsg b.path)] } := by
  unfold processFolder processFolderCore
  rw [hb]
  rw [if_pos rfl]

/-- One folder iteration reads the incoming state only through its
all_tables and clockIdx fields, as far as those two fields of the result
are concerned. -/
lemma processFolderCore_tables_clock (parse : String → Option Int) (clock : Nat → Int)
    (fc : FolderEntry) (pe : Bool) (files : List (String × Option Doc))
    (st₁ st₂ : PipeState)
    (h1 : st₁.all_tables = st₂.all_tables) (h2 : st₁.clockIdx = st₂.clockIdx) :
    (processFolderCore parse clock st₁ fc pe files).all_tables =
      (processFolderCore parse clock st₂ fc pe files).all_tables ∧
    (processFolderCore parse clock st₁ fc pe files).clockIdx =
      (processFolderCore parse clock st₂ fc pe files).clockIdx := by
  simp only [processFolderCore]
  rw [h2]
  split_ifs <;> simp [h1, h2]

/-- The folder loop propagates agreement on all_tables and clockIdx. -/
lemma processFolders_tables_clock_congr (fs : FS) (parse : String → Option Int)
    (clock : Nat → Int) :
    ∀ (folders : List FolderEntry) (st₁ st₂ : PipeState),
      st₁.all_tables = st₂.all_tables → st₁.clockIdx = st₂.clockIdx →
      (processFolders fs parse clock st₁ folders).all_tables =
        (processFolders fs parse clock st₂ folders).all_tables ∧
      (processFolders fs parse clock st₁ folders).clockIdx =
        (processFolders fs parse clock st₂ folders).clockIdx := by
  intro folders
  induction folders with
  | nil => intro st₁ st₂ h1 h2; exact ⟨h1, h2⟩
  | cons fc rest ih =>
    intro st₁ st₂ h1 h2
    simp only [processFolders, processFolder]
    have hstep := processFolderCore_tables_clock parse clock fc (fs.exists_path fc.path)
      (fs.files fc.path) st₁ st₂ h1 h2
    exact ih _ _ hstep.1 hstep.2

/-- C6 (claim C6): per-folder failure isolation: a folder whose
configured path does not exist only appends a folder-level error to the
run state — the remaining folders are processed from that state exactly
as they would have been, and the missing-path folder contributes no
dataset (the resulting all_tables is the same as in the run without that
folder). -/
theorem missing_path_folder_isolation (fs : FS) (parse : String → Option Int)
    (clock : Nat → Int) (b : FolderEntry)
    (hb : fs.exists_path b.path = false) (st : PipeState) (pre post : List FolderEntry) :
    processFolders fs parse clock st (pre ++ b :: post) =
      processFolders fs parse clock
        { processFolders fs parse clock st pre with
          error := (processFolders fs parse clock st pre).error ++
            [(b.name, pathErrMsg b.path)] } post ∧
    (processFolders fs parse clock st (pre ++ b :: post)).all_tables =
      (processFolders fs parse clock st (pre ++ post)).all_tables := by
  have heq : processFolders fs parse clock st (pre ++ b :: post) =
      processFolders fs parse clock
        (processFolder fs parse clock (processFolders fs parse clock st pre) b) post := by
    rw [processFolders_append]
    rfl
  constructor
  · rw [heq, processFolder_missing_path fs parse clock _ b hb]
  · rw [heq, processFolder_missing_path fs parse clock _ b hb]
    rw [processFolders_append]
    exact (processFolders_tables_clock_congr fs parse clock post _ _ (by simp) (by simp)).1

/-- C6 witness: the concrete missing-path folder only records its error
and contributes no dataset. -/
theorem missing_path_folder_isolation_witness :
    processFolders fsW6 parseDemo clockDemo initState ([] ++ folderDemo :: []) =
      processFolders fsW6 parseDemo clockDemo
        { processFolders fsW6 parseDemo clockDemo initState [] with
          error := (processFolders fsW6 parseDemo clockDemo initState []).error ++
            [(folderDemo.name, pathErrMsg folderDemo.path)] } [] ∧
    (processFolders fsW6 parseDemo clockDemo initState ([] ++ folderDemo :: [])).all_tables =
      (processFolders fsW6 parseDemo clockDemo initState ([] ++ [])).all_tables :=
  missing_path_folder_isolation fsW6 parseDemo clockDemo folderDemo (by decide) initState [] []

/-- One folder iteration only ever appends to all_tables and
warning_samples, and appends warning samples only when it also appends a
dataset. -/
lemma processFolderCore_extends (parse : String → Option Int) (clock : Nat → Int)
    (st : PipeState) (fc : FolderEntry) (pe : Bool)
    (files : List (String × Option Doc)) :
    ∃ t w, (processFolderCore parse clock st fc pe files).all_tables = st.all_tables ++ t ∧
      (processFolderCore parse clock st fc pe files).warning_samples =
        st.warning_samples ++ w ∧
      (t = [] → w = []) := by
  by_cases h1 : pe = false
  · exact ⟨[], [], by simp [processFolderCore, h1], by simp [processFolderCore, h1],
      fun _ => rfl⟩
  · by_cases h2 : files = []
    · exact ⟨[], [], by simp [processFolderCore, h1, h2],
        by simp [processFolderCore, h1, h2], fun _ => rfl⟩
    · by_cases h3 : (scanFiles fc.name files).2.2 = []
      · by_cases h4 : (scanFiles fc.name files).1 = []
        · exact ⟨[], [], by simp [processFolderCore, h1, h2, h3, h4],
            by simp [processFolderCore, h1, h2, h3, h4], fun _ => rfl⟩
        · by_cases h5 : endReformatRaises parse
              (process_date_warnings parse clock (concatDFs (scanFiles fc.name files).1)
                [fc.rule] st.clockIdx).1 fc.rule = true
          · exact ⟨[(process_date_warnings parse clock (concatDFs (scanFiles fc.name files).1)
                [fc.rule] st.clockIdx).1], [],
              by simp [processFolderCore, h1, h2, h3, h4, h5],
              by simp [processFolderCore, h1, h2, h3, h4, h5],
              fun hc => absurd hc (by simp)⟩
          · exact ⟨[(process_date_warnings parse clock (concatDFs (scanFiles fc.name files).1)
                [fc.rule] st.clockIdx).1],
              folderSampleSets
                (process_date_warnings parse clock (concatDFs (scanFiles fc.name files).1)
                  [fc.rule] st.clockIdx).1
                (process_date_warnings parse clock (concatDFs (scanFiles fc.name files).1)
                  [fc.rule] st.clockIdx).2.1,
              by simp [processFolderCore, h1, h2, h3, h4, h5],
              by simp [processFolderCore, h1, h2, h3, h4, h5],
              fun hc => absurd hc (by simp)⟩
      · by_cases h4 : (scanFiles fc.name files).1 = []
        · exact ⟨[], [], by simp [processFolderCore, h1, h2, h3, h4],
            by simp [processFolderCore, h1, h2, h3, h4], fun _ => rfl⟩
        · by_cases h5 : endReformatRaises parse
              (process_date_warnings parse clock (concatDFs (scanFiles fc.name files).1)
                [fc.rule] st.clockIdx).1 fc.rule = true
          · exact ⟨[(process_date_warnings parse clock (concatDFs (scanFiles fc.name files).1)
                [fc.rule] st.clockIdx).1], [],
              by simp [processFolderCore, h1, h2, h3, h4, h5],
              by simp [processFolderCore, h1, h2, h3, h4, h5],
              fun hc => absurd hc (by simp)⟩
          · exact ⟨[(process_date_warnings parse clock (concatDFs (scanFiles fc.name files).1)
                [fc.rule] st.clockIdx).1],
              folderSampleSets
                (process_date_warnings parse clock (concatDFs (scanFiles fc.name files).1)
                  [fc.rule] st.clockIdx).1
                (process_date_warnings parse clock (concatDFs (scanFiles fc.name files).1)
                  [fc.rule] st.clockIdx).2.1,
              by simp [processFolderCore, h1, h2, h3, h4, h5],
              by simp [processFolderCore, h1, h2, h3, h4, h5],
              fun hc => absurd hc (by simp)⟩

/-- The folder loop only ever appends to all_tables and warning_samples,
and appends warning samples only when it also appends datasets. -/
lemma processFolders_extends (fs : FS) (parse : String → Option Int) (clock : Nat → Int) :
    ∀ (folders : List FolderEntry) (st : PipeState), ∃ t w,
      (processFolders fs parse clock st folders).all_tables = st.all_tables ++ t ∧
      (processFolders fs parse clock st folders).warning_samples =
        st.warning_samples ++ w ∧
      (t = [] → w = []) := by
  intro folders
  induction folders with
  | nil => intro st; exact ⟨[], [], by simp [processFolders], by simp [processFolders],
      fun _ => rfl⟩
  | cons fc rest ih =>
    intro st
    obtain ⟨t₁, w₁, ht₁, hw₁, hi₁⟩ :=
      processFolderCore_extends parse clock st fc (fs.exists_path fc.path) (fs.files fc.path)
    obtain ⟨t₂, w₂, ht₂, hw₂, hi₂⟩ := ih (processFolder fs parse clock st fc)
    refine ⟨t₁ ++ t₂, w₁ ++ w₂, ?_, ?_, ?_⟩
    · simp only [processFolders]
      rw [ht₂]
      rw [show processFolder fs parse clock st fc =
        processFolderCore parse clock st fc (fs.exists_path fc.path) (fs.files fc.path)
        from rfl, ht₁, List.append_assoc]
    · simp only [processFolders]
      rw [hw₂]
      rw [show processFolder fs parse clock st fc =
        processFolderCore parse clock st fc (fs.exists_path fc.path) (fs.files fc.path)
        from rfl, hw₁, List.append_assoc]
    · intro hc
      rcases List.append_eq_nil.mp hc with ⟨hc₁, hc₂⟩
      rw [hi₁ hc₁, hi₂ hc₂]
      rfl

/-- C8 (claim C8): when no folder contributes a dataset (all_tables comes
back empty, in particular for an empty configuration), the run ends with
no merged dataset, no warning dataset, and all three summary counts
(已超期, 接近超期, total) equal to zero; the model is total, so the run
raises no error. -/
theorem empty_state_no_data (fs : FS) (parse : String → Option Int) (clock : Nat → Int)
    (folders : List FolderEntry)
    (h : (runPipeline fs parse clock folders).all_tables = []) :
    mergedAll (runPipeline fs parse clock folders) = none ∧
    combinedWarnings (runPipeline fs parse clock folders) = none ∧
    overdueCount (runPipeline fs parse clock folders) = 0 ∧
    nearCount (runPipeline fs parse clock folders) = 0 ∧
    totalWarnings (runPipeline fs parse clock folders) = 0 := by
  have hw : (runPipeline fs parse clock folders).warning_samples = [] := by
    obtain ⟨t, w, ht, hww, hi⟩ := processFolders_extends fs parse clock folders initState
    have hteq : (runPipeline fs parse clock folders).all_tables = initState.all_tables ++ t :=
      ht
    rw [h] at hteq
    have htnil : t = [] := by simpa [initState] using hteq.symm
    have hweq : (runPipeline fs parse clock folders).warning_samples =
        initState.warning_samples ++ w := hww
    rw [hweq, hi htnil]
    rfl
  refine ⟨by simp [mergedAll, h], by simp [combinedWarnings, hw], ?_, ?_, ?_⟩ <;>
    simp [overdueCount, nearCount, totalWarnings, combinedWarnings, hw, countStatus]

/-- C8 witness: the empty configuration yields the empty state with all
summary counts zero. -/
theorem empty_state_no_data_witness :
    mergedAll (runPipeline fsW6 parseDemo clockDemo []) = none ∧
    combinedWarnings (runPipeline fsW6 parseDemo clockDemo []) = none ∧
    overdueCount (runPipeline fsW6 parseDemo clockDemo []) = 0 ∧
    nearCount (runPipeline fsW6 parseDemo clockDemo []) = 0 ∧
    totalWarnings (runPipeline fsW6 parseDemo clockDemo []) = 0 :=
  empty_state_no_data fsW6 parseDemo clockDemo [] (by decide)
